import Mathlib

/-!
Shallow embedding of the Warg registry client (`crates/client/src/lib.rs`).

Pure data is embedded directly; external collaborators (the registry HTTP
API, the cryptographic validators of the `warg_protocol` crate) are fields
of an `Env` record of arbitrary functions, so theorems quantify over their
behaviour.  Client storage (the `RegistryStorage`/`ContentStorage` traits,
backed by the file system in the source) is an explicit `Store` value
threaded through each operation; storage reads and writes are modelled as
total functions on that value.  Machine integers (`RegistryLen = u32`,
digests) are modelled as `Nat`: the client only compares them.
-/

set_option autoImplicit false

namespace WargClient

/-- A registry checkpoint: `log_length`, `log_root`, `map_root`
(`warg_protocol::registry::Checkpoint`; roots are digests, modelled as `Nat`). -/
structure Checkpoint where
  log_length : Nat
  log_root : Nat
  map_root : Nat
deriving DecidableEq, Inhabited

/-- A signed, timestamped checkpoint (`SerdeEnvelope<TimestampedCheckpoint>`):
the checkpoint plus the signing key id and signature over its encoding. -/
structure TsCheckpoint where
  checkpoint : Checkpoint
  key_id : Nat
  signature : Nat
deriving DecidableEq, Inhabited

/-- Identifier of a log: the fixed operator log, or a package log derived
deterministically (by hashing) from the package name.  Content addressing is
modelled by the constructor being injective on names. -/
inductive LogId where
  | operator_log : LogId
  | package_log : String → LogId
deriving DecidableEq, Inhabited

/-- A protobuf envelope that the registry has assigned a position in its
global append-only sequence (`PublishedProtoEnvelope`).  The payload
(`envelope`, a signed operator or package record) is abstract. -/
structure PublishedProtoEnvelope where
  envelope : Nat
  registry_index : Nat
deriving DecidableEq, Inhabited

deriving instance DecidableEq for Except

/-- One record returned by `fetch_logs`: the raw envelope (whose conversion
via `TryInto` may fail, carried here as an `Except`) and its fetch token. -/
structure FetchedRecord where
  envelope : Except Nat PublishedProtoEnvelope
  fetch_token : String
deriving DecidableEq, Inhabited

/-- The body of one `fetch_logs` response page. -/
structure FetchLogsResponse where
  operator : List FetchedRecord
  packages : List (LogId × List FetchedRecord)
  more : Bool
deriving DecidableEq, Inhabited

/-- The `fetch_logs` request: target log length, operator cursor and a
cursor per requested package log. -/
structure FetchLogsRequest where
  log_length : Nat
  operator : Option String
  packages : List (LogId × Option String)
deriving DecidableEq, Inhabited

/-- One (log id, record id) pair submitted to the inclusion-proof verifier. -/
structure LogLeaf where
  log_id : LogId
  record_id : Nat
deriving DecidableEq, Inhabited

/-- Errors surfaced by the registry API client (`api::ClientError`),
collapsed to the shapes `lib.rs` inspects: a "log not found" condition,
a registry policy rejection, and everything else. -/
inductive ApiError where
  | logNotFound : LogId → ApiError
  | rejection : String → ApiError
  | otherError : Nat → ApiError
deriving DecidableEq, Inhabited

/-- An upload endpoint for missing content.  The source matches only on the
HTTP variant (`UploadEndpoint::Http { method, url, headers }`) and skips
anything else; `other` stands for any non-HTTP endpoint. -/
inductive UploadEndpoint where
  | http : String → String → List (String × String) → UploadEndpoint
  | other : UploadEndpoint
deriving DecidableEq, Inhabited

/-- The upload endpoints offered for one missing content digest. -/
structure MissingContent where
  upload : List UploadEndpoint
deriving DecidableEq, Inhabited

/-- Response to `publish_package_record`: the new record id and the missing
content digests with their upload endpoints. -/
structure PublishResponse where
  record_id : Nat
  missing_content : List (Nat × MissingContent)
deriving DecidableEq, Inhabited

/-- Request body of `publish_package_record` (package name and the
finalized signed record, abstract). -/
structure PublishRecordRequest where
  package_name : String
  record : Nat
deriving DecidableEq, Inhabited

/-- A resolved release of a package: its version and, unless yanked, the
content digest (`release.content()` is `None` for yanked releases). -/
structure Release where
  version : Nat
  content : Option Nat
deriving DecidableEq, Inhabited

/-- Modelled from the spec: `storage::OperatorInfo` (the storage module is
not under `src/`): the operator log's validated state, the registry index
of its head and the fetch token for resuming (spec §3, "Validated Log
State").  The validated state itself is abstract (`Nat`), interpreted by
the `Env` validator functions. -/
structure OperatorInfo where
  state : Nat
  head_registry_index : Option Nat
  head_fetch_token : Option String
deriving DecidableEq, Inhabited

/-- Modelled from the spec: `storage::PackageInfo` (the storage module is
not under `src/`): one package's name, validated log state, the checkpoint
it was last synchronized against, and its head index / fetch token, as
used field-by-field in `lib.rs`. -/
structure PackageInfo where
  name : String
  state : Nat
  checkpoint : Option Checkpoint
  head_registry_index : Option Nat
  head_fetch_token : Option String
deriving DecidableEq, Inhabited

/-- `PackageInfo::new(name)`: a fresh, empty package mirror. -/
def PackageInfo.new (name : String) : PackageInfo :=
  { name := name, state := 0, checkpoint := none
    head_registry_index := none, head_fetch_token := none }

/-- Modelled from the spec: a pending publish entry (init / release / yank,
spec §3 `PublishInfo`). -/
inductive PublishEntry where
  | init : PublishEntry
  | release : Nat → Nat → PublishEntry
  | yank : Nat → PublishEntry
deriving DecidableEq, Inhabited

/-- Modelled from the spec: `storage::PublishInfo` — package name, optional
explicit head digest, and the ordered entry list (spec §3). -/
structure PublishInfo where
  name : String
  head : Option Nat
  entries : List PublishEntry
deriving DecidableEq, Inhabited

/-- Modelled from the spec: `PublishInfo::initializing` — the pending
publish starts a brand-new package log, i.e. its entry list begins with an
init entry. -/
def PublishInfo.initializing (info : PublishInfo) : Bool :=
  match info.entries with
  | .init :: _ => true
  | _ => false

/-- The error taxonomy of `ClientError` in `lib.rs`, restricted to the
variants the embedded operations can produce.  `other` stands for the
`anyhow`-wrapped catch-all (`ClientError::Other`). -/
inductive ClientError where
  | invalidCheckpointSignature : ClientError
  | invalidCheckpointKeyId : Nat → ClientError
  | noOperatorRecords : ClientError
  | operatorValidationFailed : Nat → ClientError
  | cannotInitializePackage : String → ClientError
  | mustInitializePackage : String → ClientError
  | notPublishing : ClientError
  | nothingToPublish : String → ClientError
  | packageDoesNotExist : String → ClientError
  | packageVersionDoesNotExist : Nat → String → ClientError
  | packageValidationFailed : String → Nat → ClientError
  | contentNotFound : Nat → ClientError
  | packageLogEmpty : String → ClientError
  | publishRejected : String → Nat → String → ClientError
  | checkpointLogLengthRewind : Nat → Nat → ClientError
  | checkpointChangedLogRootOrMapRoot : Nat → ClientError
  | api : ApiError → ClientError
  | other : Nat → ClientError
deriving DecidableEq, Inhabited

/-- The external collaborators of the client, as arbitrary functions:
the `warg_protocol` validators and head accessors over the abstract
validated states, checkpoint signature verification, and every registry
API endpoint.  `fetchLogs` additionally receives the index of the call
within the current fetch loop, standing for the server's evolving state;
`fuel` bounds the fetch loop (the source loops until the server reports
no more pages). -/
structure Env where
  opValidate : Nat → Nat → Except Nat Nat
  opPublicKey : Nat → Nat → Option Nat
  opHead : Nat → Option Nat
  pkgValidate : Nat → Nat → Except Nat Nat
  pkgHead : Nat → Option Nat
  pkgRelease : Nat → Nat → Option Release
  pkgFindLatestRelease : Nat → Nat → Option Release
  verifyCheckpointSig : Nat → TsCheckpoint → Bool
  latestCheckpoint : Except ApiError TsCheckpoint
  fetchLogs : Nat → FetchLogsRequest → Except ApiError FetchLogsResponse
  proveInclusion : Nat → List Nat → Checkpoint → List LogLeaf → Except ApiError Unit
  proveLogConsistency : Nat → Nat → Nat → Nat → Except ApiError Unit
  publishPackageRecord : LogId → PublishRecordRequest → Except ApiError PublishResponse
  uploadContent : String → String → List (String × String) → Nat → Except ApiError Unit
  downloadContent : Nat → Except ApiError Nat
  finalize : PublishInfo → Nat → Except Nat Nat
  fuel : Nat

/-- Insert-or-overwrite into an association list (the model of `HashMap`
insertion and of keyed storage writes). -/
def setAssoc {κ α : Type} [DecidableEq κ] : List (κ × α) → κ → α → List (κ × α)
  | [], k, a => [(k, a)]
  | (k', a') :: rest, k, a =>
    if k' = k then (k, a) :: rest else (k', a') :: setAssoc rest k a

/-- Lookup in an association list. -/
def lookupAssoc {κ α : Type} [DecidableEq κ] : List (κ × α) → κ → Option α
  | [], _ => none
  | (k', a') :: rest, k => if k' = k then some a' else lookupAssoc rest k

/-- Client storage (the `RegistryStorage` and `ContentStorage` traits):
operator state, package mirrors keyed by name, the latest trusted
checkpoint, a staged publish, and the content store keyed by digest. -/
structure Store where
  operator : Option OperatorInfo
  packages : List (String × PackageInfo)
  checkpoint : Option TsCheckpoint
  publish : Option PublishInfo
  contents : List (Nat × Nat)
deriving DecidableEq, Inhabited

/-- `RegistryStorage::load_package(name)`. -/
def Store.load_package (st : Store) (name : String) : Option PackageInfo :=
  lookupAssoc st.packages name

/-- `RegistryStorage::store_package`, keyed by the package's name. -/
def Store.store_package (st : Store) (p : PackageInfo) : Store :=
  { st with packages := setAssoc st.packages p.name p }

/-- `RegistryStorage::store_operator`. -/
def Store.store_operator (st : Store) (op : OperatorInfo) : Store :=
  { st with operator := some op }

/-- `RegistryStorage::store_checkpoint`. -/
def Store.store_checkpoint (st : Store) (ts : TsCheckpoint) : Store :=
  { st with checkpoint := some ts }

/-- `RegistryStorage::store_publish` (staging or clearing a publish). -/
def Store.store_publish (st : Store) (info : Option PublishInfo) : Store :=
  { st with publish := info }

/-- `ContentStorage::content_location(digest)`: the path of locally stored
content, if present (paths are modelled by the digest itself). -/
def Store.content_location (st : Store) (digest : Nat) : Option Nat :=
  (lookupAssoc st.contents digest).map (fun _ => digest)

/-- `ContentStorage::load_content(digest)`. -/
def Store.load_content (st : Store) (digest : Nat) : Option Nat :=
  lookupAssoc st.contents digest

/-- `ContentStorage::store_content(stream, digest)`. -/
def Store.store_content (st : Store) (stream digest : Nat) : Store :=
  { st with contents := setAssoc st.contents digest stream }

/-- `ClientError::translate_log_not_found`: turn an API "log not found"
into `PackageDoesNotExist` when the log id maps to a requested package. -/
def translate_log_not_found (e : ApiError) (lookup : LogId → Option String) :
    ClientError :=
  match e with
  | .logNotFound id =>
    match lookup id with
    | some name => .packageDoesNotExist name
    | none => .api e
  | _ => .api e

/-- Processing of one fetched operator record inside `update_checkpoint`'s
loop: convert the raw envelope, skip it if its `registry_index` is not
strictly greater than the held head index, otherwise validate and advance
head index and fetch token. -/
def processOperatorRecord (env : Env) (op : OperatorInfo) (r : FetchedRecord) :
    Except ClientError OperatorInfo :=
  match r.envelope with
  | .error n => .error (.other n)
  | .ok pe =>
    if op.head_registry_index.isNone ∨
        pe.registry_index > op.head_registry_index.getD 0 then
      match env.opValidate op.state pe.envelope with
      | .error inner => .error (.operatorValidationFailed inner)
      | .ok state' =>
        .ok { op with
              state := state'
              head_registry_index := some pe.registry_index
              head_fetch_token := some r.fetch_token }
    else
      .ok op

/-- The `for record in response.operator` loop. -/
def processOperatorRecords (env : Env) :
    OperatorInfo → List FetchedRecord → Except ClientError OperatorInfo
  | op, [] => .ok op
  | op, r :: rs =>
    match processOperatorRecord env op r with
    | .error e => .error e
    | .ok op' => processOperatorRecords env op' rs

/-- Processing of one fetched package record: the same strict
`registry_index` skip/advance rule, with validation errors reported as
`PackageValidationFailed`. -/
def processPackageRecord (env : Env) (p : PackageInfo) (r : FetchedRecord) :
    Except ClientError PackageInfo :=
  match r.envelope with
  | .error n => .error (.other n)
  | .ok pe =>
    if p.head_registry_index.isNone ∨
        pe.registry_index > p.head_registry_index.getD 0 then
      match env.pkgValidate p.state pe.envelope with
      | .error inner => .error (.packageValidationFailed p.name inner)
      | .ok state' =>
        .ok { p with
              state := state'
              head_registry_index := some pe.registry_index
              head_fetch_token := some r.fetch_token }
    else
      .ok p

/-- The `for record in records` loop for one package. -/
def processPackageRecords (env : Env) :
    PackageInfo → List FetchedRecord → Except ClientError PackageInfo
  | p, [] => .ok p
  | p, r :: rs =>
    match processPackageRecord env p r with
    | .error e => .error e
    | .ok p' => processPackageRecords env p' rs

/-- One package's batch: apply every record, then fail with
`PackageLogEmpty` if the validated state still has no head. -/
def processPackageBatch (env : Env) (p : PackageInfo)
    (records : List FetchedRecord) : Except ClientError PackageInfo :=
  match processPackageRecords env p records with
  | .error e => .error e
  | .ok p' =>
    if (env.pkgHead p'.state).isNone then .error (.packageLogEmpty p'.name)
    else .ok p'

/-- The `for (log_id, records) in response.packages` loop.  `updating`
maps each pending log id to the position of its package in the working
list `ps`; a response for an unrequested log id is the `anyhow` protocol
error of the source. -/
def processPagePackages (env : Env) (updating : List (LogId × Nat)) :
    List PackageInfo → List (LogId × List FetchedRecord) →
      Except ClientError (List PackageInfo)
  | ps, [] => .ok ps
  | ps, (log_id, records) :: rest =>
    match lookupAssoc updating log_id with
    | none => .error (.other 0)
    | some idx =>
      match processPackageBatch env (ps.getD idx (PackageInfo.new "")) records with
      | .error e => .error e
      | .ok p' => processPagePackages env updating (ps.set idx p') rest

/-- The paginated fetch loop of `update_checkpoint` (step 3 of the
synchronization algorithm): request a page with the current cursors,
process operator and package records, and repeat while the server reports
more pages, refreshing the per-log cursors from the advanced fetch tokens.
The source loops until `more` is false; `fuel` bounds the model's
recursion, and its exhaustion is modelled as a transport failure. -/
def fetchLoop (env : Env) (checkpoint : Checkpoint)
    (updating : List (LogId × Nat)) :
    Nat → Nat → OperatorInfo → List PackageInfo → List (LogId × Option String) →
      Except ClientError (OperatorInfo × List PackageInfo)
  | 0, _, _, _, _ => .error (.api (.otherError 0))
  | fuel + 1, callIdx, op, ps, last_known =>
    match env.fetchLogs callIdx
        { log_length := checkpoint.log_length
          operator := op.head_fetch_token
          packages := last_known } with
    | .error e =>
      .error (translate_log_not_found e (fun id =>
        (lookupAssoc updating id).map (fun idx =>
          (ps.getD idx (PackageInfo.new "")).name)))
    | .ok response =>
      match processOperatorRecords env op response.operator with
      | .error e => .error e
      | .ok op' =>
        match processPagePackages env updating ps response.packages with
        | .error e => .error e
        | .ok ps' =>
          if response.more then
            fetchLoop env checkpoint updating fuel (callIdx + 1) op' ps'
              (last_known.map (fun (id, _) =>
                (id, match lookupAssoc updating id with
                     | some idx => (ps'.getD idx (PackageInfo.new "")).head_fetch_token
                     | none => none)))
          else
            .ok (op', ps')

/-- Step 4: resolve the checkpoint's key id against the now up-to-date
operator state and verify the checkpoint signature. -/
def verifyCheckpointStep (env : Env) (ts : TsCheckpoint) (op : OperatorInfo) :
    Except ClientError Unit :=
  match env.opPublicKey op.state ts.key_id with
  | none => .error (.invalidCheckpointKeyId ts.key_id)
  | some key =>
    if env.verifyCheckpointSig key ts then .ok ()
    else .error .invalidCheckpointSignature

/-- The per-package part of step 5: one inclusion leaf (registry index of
the head, head record digest) per pending package, failing with
`PackageLogEmpty` when a package still has no head index. -/
def packageLeaves (env : Env) (ps : List PackageInfo) :
    List (LogId × Nat) → Except ClientError (List Nat × List LogLeaf)
  | [] => .ok ([], [])
  | (log_id, idx) :: rest =>
    let p := ps.getD idx (PackageInfo.new "")
    match p.head_registry_index with
    | none => .error (.packageLogEmpty p.name)
    | some index =>
      match packageLeaves env ps rest with
      | .error e => .error e
      | .ok (idxs, leafs) =>
        .ok (index :: idxs, ⟨log_id, (env.pkgHead p.state).getD 0⟩ :: leafs)

/-- Step 5: the inclusion leaf set — the operator head (mandatory:
`NoOperatorRecords` otherwise) followed by one leaf per package.  The
source unwraps the head record digests; the model reads them with a
default. -/
def buildLeaves (env : Env) (op : OperatorInfo) (updating : List (LogId × Nat))
    (ps : List PackageInfo) : Except ClientError (List Nat × List LogLeaf) :=
  match op.head_registry_index with
  | none => .error .noOperatorRecords
  | some index =>
    match packageLeaves env ps updating with
    | .error e => .error e
    | .ok (idxs, leafs) =>
      .ok (index :: idxs, ⟨LogId.operator_log, (env.opHead op.state).getD 0⟩ :: leafs)

/-- Submission of the leaf set to the external inclusion verifier (the
source skips the call when the leaf set is empty). -/
def inclusionStep (env : Env) (checkpoint : Checkpoint) (leaf_indices : List Nat)
    (leafs : List LogLeaf) : Except ClientError Unit :=
  if leafs.isEmpty then .ok ()
  else
    match env.proveInclusion checkpoint.log_length leaf_indices checkpoint leafs with
    | .error e => .error (.api e)
    | .ok _ => .ok ()

/-- Step 6, checkpoint progression against the stored trusted checkpoint:
no stored checkpoint passes; a strictly shorter target is a rewind; a
strictly longer one delegates to the external consistency verifier; equal
lengths require byte-identical log and map roots. -/
def progressionCheck (env : Env) (st : Store) (ts : TsCheckpoint) :
    Except ClientError Unit :=
  match st.checkpoint with
  | none => .ok ()
  | some fromCp =>
    let from_log_length := fromCp.checkpoint.log_length
    let to_log_length := ts.checkpoint.log_length
    if from_log_length > to_log_length then
      .error (.checkpointLogLengthRewind from_log_length to_log_length)
    else if from_log_length < to_log_length then
      match env.proveLogConsistency from_log_length to_log_length
          fromCp.checkpoint.log_root ts.checkpoint.log_root with
      | .error e => .error (.api e)
      | .ok _ => .ok ()
    else
      if fromCp.checkpoint.log_root ≠ ts.checkpoint.log_root ∨
          fromCp.checkpoint.map_root ≠ ts.checkpoint.map_root then
        .error (.checkpointChangedLogRootOrMapRoot from_log_length)
      else
        .ok ()

/-- The accumulating pass behind `buildUpdating`: walk the input packages
with their positions, skipping packages already at the target checkpoint
and inserting the rest keyed by their package log id. -/
def buildUpdatingAux (checkpoint : Checkpoint) :
    List (LogId × Nat) → Nat → List PackageInfo → List (LogId × Nat)
  | acc, _, [] => acc
  | acc, i, p :: ps =>
    buildUpdatingAux checkpoint
      (if p.checkpoint = some checkpoint then acc
       else setAssoc acc (LogId.package_log p.name) i)
      (i + 1) ps

/-- Step 1: the pending-update map — each package whose stored checkpoint
differs from the target, keyed (with `HashMap` overwrite semantics) by its
package log id, valued by its position in the input list. -/
def buildUpdating (checkpoint : Checkpoint) (packages : List PackageInfo) :
    List (LogId × Nat) :=
  buildUpdatingAux checkpoint [] 0 packages

/-- Step 7, the commit: store the operator, store each pending package
with its checkpoint reference set to the target, and store the new trusted
checkpoint.  Returns the new store and the mutated package list. -/
def commitUpdating (ts : TsCheckpoint) :
    Store → List PackageInfo → List (LogId × Nat) → Store × List PackageInfo
  | st, ps, [] => (st, ps)
  | st, ps, (_, idx) :: rest =>
    let p := ps.getD idx (PackageInfo.new "")
    let p' := { p with checkpoint := some ts.checkpoint }
    commitUpdating ts (st.store_package p') (ps.set idx p') rest

/-- `Client::update_checkpoint`: the synchronization algorithm.  Returns
the resulting store alongside either the mutated package list or the error
that aborted the cycle.  All persistence happens in the final commit;
every error path returns the store that was passed in. -/
def update_checkpoint (env : Env) (st : Store) (ts : TsCheckpoint)
    (packages : List PackageInfo) : Store × Except ClientError (List PackageInfo) :=
  let checkpoint := ts.checkpoint
  let op0 := st.operator.getD default
  let updating := buildUpdating checkpoint packages
  if updating.isEmpty then
    (st, .ok packages)
  else
    let last_known := updating.map (fun (id, idx) =>
      (id, (packages.getD idx (PackageInfo.new "")).head_fetch_token))
    match fetchLoop env checkpoint updating env.fuel 0 op0 packages last_known with
    | .error e => (st, .error e)
    | .ok (op, ps) =>
      match verifyCheckpointStep env ts op with
      | .error e => (st, .error e)
      | .ok _ =>
        match buildLeaves env op updating ps with
        | .error e => (st, .error e)
        | .ok (leaf_indices, leafs) =>
          match inclusionStep env checkpoint leaf_indices leafs with
          | .error e => (st, .error e)
          | .ok _ =>
            match progressionCheck env st ts with
            | .error e => (st, .error e)
            | .ok _ =>
              let committed := commitUpdating ts (st.store_operator op) ps updating
              (committed.1.store_checkpoint ts, .ok committed.2)

/-- The missing-content upload loop of `publish_with_info`: for each
missing digest, look only at the first upload endpoint; skip the digest
when there is none or it is not HTTP; otherwise load the content from
client storage (absent content is `ContentNotFound`) and upload it,
mapping a registry rejection to `PublishRejected`. -/
def uploadMissing (env : Env) (st : Store) (name : String) (record_id : Nat) :
    List (Nat × MissingContent) → Except ClientError Unit
  | [] => .ok ()
  | (digest, mc) :: rest =>
    match mc.upload.head? with
    | some (.http method url headers) =>
      match st.load_content digest with
      | none => .error (.contentNotFound digest)
      | some content =>
        match env.uploadContent method url headers content with
        | .error (.rejection reason) =>
          .error (.publishRejected name record_id reason)
        | .error e => .error (.api e)
        | .ok _ => uploadMissing env st name record_id rest
    | _ => uploadMissing env st name record_id rest

/-- The submission tail of `publish_with_info`, after the head has been
resolved: reject the two invalid (initializing, head) combinations,
finalize and submit the record, upload missing content, and return the
record id. -/
def publishSubmit (env : Env) (signing_key : Nat) (st : Store)
    (info : PublishInfo) (package : PackageInfo) (initializing : Bool) :
    Store × Except ClientError Nat :=
  match initializing, info.head.isSome with
  | true, true => (st, .error (.cannotInitializePackage package.name))
  | false, false => (st, .error (.mustInitializePackage package.name))
  | _, _ =>
    match env.finalize info signing_key with
    | .error n => (st, .error (.other n))
    | .ok record =>
      let log_id := LogId.package_log package.name
      match env.publishPackageRecord log_id
          { package_name := package.name, record := record } with
      | .error e =>
        (st, .error (translate_log_not_found e (fun id =>
          if id = log_id then some package.name else none)))
      | .ok response =>
        match uploadMissing env st package.name response.record_id
            response.missing_content with
        | .error e => (st, .error e)
        | .ok _ => (st, .ok response.record_id)

/-- `Client::publish_with_info`: fail fast on an empty entry list; load
(or freshly create) the package mirror; when not initializing and no head
was given, first synchronize to the latest checkpoint to resolve the head
from the package's validated state; then submit. -/
def publish_with_info (env : Env) (signing_key : Nat) (st : Store)
    (info : PublishInfo) : Store × Except ClientError Nat :=
  if info.entries.isEmpty then
    (st, .error (.nothingToPublish info.name))
  else
    let initializing := info.initializing
    let package0 := (st.load_package info.name).getD (PackageInfo.new info.name)
    if ¬initializing ∧ info.head = none then
      match env.latestCheckpoint with
      | .error e => (st, .error (.api e))
      | .ok ts =>
        match update_checkpoint env st ts [package0] with
        | (st', .error e) => (st', .error e)
        | (st', .ok ps) =>
          let package := ps.getD 0 package0
          publishSubmit env signing_key st'
            { info with head := env.pkgHead package.state } package initializing
    else
      publishSubmit env signing_key st info package0 initializing

/-- `Client::publish`: require a staged `PublishInfo` (else
`NotPublishing`), run `publish_with_info`, and clear the staged publish
from storage whatever the outcome was. -/
def publish (env : Env) (signing_key : Nat) (st : Store) :
    Store × Except ClientError Nat :=
  match st.publish with
  | none => (st, .error .notPublishing)
  | some info =>
    let (st', res) := publish_with_info env signing_key st info
    (st'.store_publish none, res)

/-- `Client::download_content`: return the existing location, or stream
the content from the registry into storage and resolve its location,
failing with `ContentNotFound` if it is still absent afterwards. -/
def download_content (env : Env) (st : Store) (digest : Nat) :
    Store × Except ClientError Nat :=
  match st.content_location digest with
  | some path => (st, .ok path)
  | none =>
    match env.downloadContent digest with
    | .error e => (st, .error (.api e))
    | .ok stream =>
      let st' := st.store_content stream digest
      match st'.content_location digest with
      | some path => (st', .ok path)
      | none => (st', .error (.contentNotFound digest))

/-- `Client::fetch_package`: a package already in client storage is
returned as-is; an unseen package is synchronized to the registry's latest
checkpoint starting from a fresh mirror. -/
def fetch_package (env : Env) (st : Store) (name : String) :
    Store × Except ClientError PackageInfo :=
  match st.load_package name with
  | some info => (st, .ok info)
  | none =>
    match env.latestCheckpoint with
    | .error e => (st, .error (.api e))
    | .ok ts =>
      match update_checkpoint env st ts [PackageInfo.new name] with
      | (st', .error e) => (st', .error e)
      | (st', .ok ps) => (st', .ok (ps.getD 0 (PackageInfo.new name)))

/-- The result of a download: resolved version, content digest and the
path of the materialized content. -/
structure PackageDownload where
  version : Nat
  digest : Nat
  path : Nat
deriving DecidableEq, Inhabited

/-- `Client::download_exact`: fetch the package, require a release at the
exact version with content (a missing version and a yanked release both
map to `PackageVersionDoesNotExist`), and materialize the content. -/
def download_exact (env : Env) (st : Store) (package : String) (version : Nat) :
    Store × Except ClientError PackageDownload :=
  match fetch_package env st package with
  | (st', .error e) => (st', .error e)
  | (st', .ok info) =>
    match env.pkgRelease info.state version with
    | none => (st', .error (.packageVersionDoesNotExist version package))
    | some release =>
      match release.content with
      | none => (st', .error (.packageVersionDoesNotExist version package))
      | some digest =>
        match download_content env st' digest with
        | (st'', .error e) => (st'', .error e)
        | (st'', .ok path) =>
          (st'', .ok { version := version, digest := digest, path := path })

/-- `Client::download`: fetch the package and resolve the latest release
satisfying the requirement; no match is a successful `none`; a matching
release without content is the internal-consistency `anyhow` error of the
source (`"invalid state: not yanked but missing content"`). -/
def download (env : Env) (st : Store) (name : String) (requirement : Nat) :
    Store × Except ClientError (Option PackageDownload) :=
  match fetch_package env st name with
  | (st', .error e) => (st', .error e)
  | (st', .ok info) =>
    match env.pkgFindLatestRelease info.state requirement with
    | none => (st', .ok none)
    | some release =>
      match release.content with
      | none => (st', .error (.other 1))
      | some digest =>
        match download_content env st' digest with
        | (st'', .error e) => (st'', .error e)
        | (st'', .ok path) =>
          (st'', .ok (some { version := release.version, digest := digest, path := path }))

/-- Boolean order on optional head indices: an absent head is below
everything, present heads compare by `≤`. -/
def optLeB : Option Nat → Option Nat → Bool
  | none, _ => true
  | some _, none => false
  | some a, some b => a ≤ b

/-- The `head_registry_index` held at position `i` of a package list
(absent positions read as a fresh, headless package). -/
def headAt (ps : List PackageInfo) (i : Nat) : Option Nat :=
  (ps.getD i (PackageInfo.new "")).head_registry_index

/-- Pointwise order of head registry indices between two package lists. -/
def headsLe (ps ps' : List PackageInfo) : Prop :=
  ∀ i, optLeB (headAt ps i) (headAt ps' i) = true

/-- A sequence of synchronization calls: each step runs
`update_checkpoint` with its own environment and target checkpoint,
carrying the store and — on success — the mutated package list forward. -/
def syncSeq : List (Env × TsCheckpoint) → Store → List PackageInfo →
    Store × List PackageInfo
  | [], st, ps => (st, ps)
  | (env, ts) :: rest, st, ps =>
    match update_checkpoint env st ts ps with
    | (st', .ok ps') => syncSeq rest st' ps'
    | (st', .error _) => syncSeq rest st' ps

/-- The target log lengths of a call sequence are non-decreasing. -/
def nondecreasingLens : List (Env × TsCheckpoint) → Bool
  | [] => true
  | [_] => true
  | a :: b :: rest =>
    (a.2.checkpoint.log_length ≤ b.2.checkpoint.log_length) &&
      nondecreasingLens (b :: rest)

/-- Whether the first upload endpoint of a missing-content entry is the
HTTP endpoint the source is able to use. -/
def usableFirst (mc : MissingContent) : Bool :=
  match mc.upload.head? with
  | some (.http _ _ _) => true
  | _ => false

/-- A benign concrete environment in which a full synchronization and a
full publish succeed: validators accept every envelope, the signature
check passes, every proof verifier accepts, and the server answers one
fetch page carrying one operator record and one record per requested
package log. -/
def envA : Env := {
  opValidate := fun _ e => .ok e
  opPublicKey := fun s _ => some s
  opHead := fun s => some s
  pkgValidate := fun _ e => .ok e
  pkgHead := fun s => if s = 0 then none else some s
  pkgRelease := fun s v => if s = 0 then none else some ⟨v, some (s + v)⟩
  pkgFindLatestRelease := fun s v => if s = 0 then none else some ⟨v, some (s + v)⟩
  verifyCheckpointSig := fun _ _ => true
  latestCheckpoint := .ok ⟨⟨5, 1, 2⟩, 0, 0⟩
  fetchLogs := fun _ req => .ok {
    operator := [⟨.ok ⟨77, 1⟩, "ot"⟩]
    packages := req.packages.map (fun idc => (idc.1, [⟨.ok ⟨55, 2⟩, "pt"⟩]))
    more := false }
  proveInclusion := fun _ _ _ _ => .ok ()
  proveLogConsistency := fun _ _ _ _ => .ok ()
  publishPackageRecord := fun _ _ => .ok ⟨42, []⟩
  uploadContent := fun _ _ _ _ => .ok ()
  downloadContent := fun d => .ok (d + 100)
  finalize := fun _ _ => .ok 9
  fuel := 4 }

/-- A hostile concrete environment: every registry API call fails with
transport error 7, validators reject everything, no key resolves. -/
def envFail : Env := {
  opValidate := fun _ _ => .error 3
  opPublicKey := fun _ _ => none
  opHead := fun _ => none
  pkgValidate := fun _ _ => .error 3
  pkgHead := fun _ => none
  pkgRelease := fun s v => if s = 1 then some ⟨v, some 5⟩ else none
  pkgFindLatestRelease := fun s v => if s = 1 then some ⟨v, some 5⟩ else none
  verifyCheckpointSig := fun _ _ => false
  latestCheckpoint := .error (.otherError 7)
  fetchLogs := fun _ _ => .error (.otherError 7)
  proveInclusion := fun _ _ _ _ => .error (.otherError 7)
  proveLogConsistency := fun _ _ _ _ => .error (.otherError 7)
  publishPackageRecord := fun _ _ => .error (.otherError 7)
  uploadContent := fun _ _ _ _ => .error (.otherError 7)
  downloadContent := fun _ => .error (.otherError 7)
  finalize := fun _ _ => .error 3
  fuel := 4 }

/-- The empty client store. -/
def stEmpty : Store := ⟨none, [], none, none, []⟩

/-- A checkpoint of log length 5 with its signed envelope. -/
def tsFive : TsCheckpoint := ⟨⟨5, 1, 2⟩, 0, 0⟩

/-- A signed checkpoint of log length 10 (distinct roots). -/
def tsTen : TsCheckpoint := ⟨⟨10, 3, 4⟩, 0, 0⟩

/-- A signed checkpoint with the same log length as `tsFive` but a
different log root. -/
def tsFiveOther : TsCheckpoint := ⟨⟨5, 8, 2⟩, 0, 0⟩

/-- A store that already trusts the length-10 checkpoint `tsTen`. -/
def stTen : Store := ⟨none, [], some tsTen, none, []⟩

/-- A store that already trusts `tsFiveOther`. -/
def stFiveOther : Store := ⟨none, [], some tsFiveOther, none, []⟩

/-- A package whose mirror already records `tsFive`'s checkpoint as the
one it was last synchronized against. -/
def pAtFive : PackageInfo :=
  { name := "p", state := 1, checkpoint := some tsFive.checkpoint
    head_registry_index := some 2, head_fetch_token := some "pt" }

/-- A local mirror of package `"p"` with validated state `1`, a head at
registry index 2, and no recorded checkpoint. -/
def pLocal : PackageInfo :=
  { name := "p", state := 1, checkpoint := none
    head_registry_index := some 2, head_fetch_token := some "pt" }

/-- A store holding a local mirror of package `"p"` (validated state `1`)
and local content for digest `5`, with no trusted checkpoint. -/
def stLocalP : Store := ⟨none, [("p", pLocal)], none, none, [(5, 9)]⟩

/-- `pLocal` after a synchronization that delivered it no records but
stamped the `tsFive` checkpoint. -/
def pLocalSynced : PackageInfo := { pLocal with checkpoint := some tsFive.checkpoint }

/-- The store `stLocalP` after committing such a synchronization. -/
def stLocalPSynced : Store :=
  ⟨some ⟨77, some 1, some "ot"⟩, [("p", pLocalSynced)], some tsFive, none, [(5, 9)]⟩

/-- A store holding a fresh, never-synchronized mirror of package `"q"`. -/
def stLocalQ : Store := ⟨none, [("q", PackageInfo.new "q")], none, none, []⟩

/-- A store with a staged publish for a new package `"p"`. -/
def stPub : Store := ⟨none, [], none, some ⟨"p", none, [.init]⟩, []⟩

/-- A variant of the benign environment whose server reports no package
records (the package log already being known) and whose package validated
states never expose a head digest. -/
def envC : Env :=
  { envA with
    pkgHead := fun _ => none
    fetchLogs := fun _ _ => .ok ⟨[⟨.ok ⟨77, 1⟩, "ot"⟩], [], false⟩ }

/-- A variant of the hostile environment whose package states resolve
every requested version to a yanked release (no content). -/
def envD : Env :=
  { envFail with pkgRelease := fun s v => if s = 1 then some ⟨v, none⟩ else none }

/-- A variant of the benign environment whose publish response reports two
missing content digests, one with no upload endpoint and one whose only
endpoint is not HTTP. -/
def envE : Env :=
  { envA with
    publishPackageRecord := fun _ _ => .ok ⟨42, [(6, ⟨[]⟩), (7, ⟨[.other]⟩)]⟩ }

theorem setAssoc_ne_nil {κ α : Type} [DecidableEq κ] (l : List (κ × α))
    (k : κ) (a : α) : setAssoc l k a ≠ [] := by
  cases l with
  | nil => simp [setAssoc]
  | cons x xs =>
    simp only [setAssoc]
    split <;> simp

theorem buildUpdatingAux_all_skipped (c : Checkpoint) :
    ∀ (l : List PackageInfo) (acc : List (LogId × Nat)) (i : Nat),
      (∀ p ∈ l, p.checkpoint = some c) → buildUpdatingAux c acc i l = acc := by
  intro l
  induction l with
  | nil => intro acc i _; rfl
  | cons p ps ih =>
    intro acc i h
    have hp : p.checkpoint = some c := h p (by simp)
    simp only [buildUpdatingAux, hp, if_pos]
    exact ih acc (i + 1) (fun q hq => h q (by simp [hq]))

theorem buildUpdatingAux_ne_nil_of_acc (c : Checkpoint) :
    ∀ (l : List PackageInfo) (acc : List (LogId × Nat)) (i : Nat),
      acc ≠ [] → buildUpdatingAux c acc i l ≠ [] := by
  intro l
  induction l with
  | nil => intro acc i h; exact h
  | cons p ps ih =>
    intro acc i h
    simp only [buildUpdatingAux]
    split
    · exact ih acc (i + 1) h
    · exact ih _ (i + 1) (setAssoc_ne_nil acc _ i)

theorem buildUpdating_ne_nil (c : Checkpoint) :
    ∀ (l : List PackageInfo) (acc : List (LogId × Nat)) (i : Nat),
      (∃ p ∈ l, p.checkpoint ≠ some c) → buildUpdatingAux c acc i l ≠ [] := by
  intro l
  induction l with
  | nil => intro acc i h; rcases h with ⟨p, hp, _⟩; cases hp
  | cons p ps ih =>
    intro acc i h
    rcases h with ⟨q, hq, hne⟩
    rcases List.mem_cons.mp hq with hq | hq
    · subst hq
      simp only [buildUpdatingAux, if_neg hne]
      exact buildUpdatingAux_ne_nil_of_acc c ps _ (i + 1) (setAssoc_ne_nil acc _ i)
    · simp only [buildUpdatingAux]
      split
      · exact ih acc (i + 1) ⟨q, hq, hne⟩
      · exact ih _ (i + 1) ⟨q, hq, hne⟩

/-- C5: if every package passed to the synchronization call already
records the target checkpoint as its current checkpoint, the filtered
update set is empty and the call returns success immediately, with the
store and every package untouched; since the result holds for every
environment, no fetch (and no API call at all) is performed.  Repeating a
synchronization to the same checkpoint is therefore a no-op. -/
theorem update_checkpoint_noop (env : Env) (st : Store) (ts : TsCheckpoint)
    (packages : List PackageInfo)
    (h : ∀ p ∈ packages, p.checkpoint = some ts.checkpoint) :
    update_checkpoint env st ts packages = (st, .ok packages) := by
  have hb : buildUpdating ts.checkpoint packages = [] :=
    buildUpdatingAux_all_skipped ts.checkpoint packages [] 0 h
  simp [update_checkpoint, hb]

/-- Closed witness for C5: a store with one package already at the target
checkpoint is returned unchanged with an immediate success, even in the
hostile environment in which every API call fails. -/
theorem update_checkpoint_noop_witness :
    update_checkpoint envFail stTen tsFive [pAtFive] = (stTen, .ok [pAtFive]) :=
  update_checkpoint_noop envFail stTen tsFive [pAtFive] (by decide)

/-- C1: whenever `update_checkpoint` returns an error — any failure of
record validation, checkpoint signature verification, inclusion-proof
verification or progression verification aborts the cycle this way — the
returned store is exactly the store that was passed in: no
`store_operator`, `store_package` or `store_checkpoint` write has been
committed. -/
theorem update_checkpoint_error_keeps_store (env : Env) (st : Store)
    (ts : TsCheckpoint) (packages : List PackageInfo) (st2 : Store)
    (e : ClientError)
    (h : update_checkpoint env st ts packages = (st2, .error e)) : st2 = st := by
  simp only [update_checkpoint] at h
  repeat
    any_goals
      first
      | (injection h with h1 h2; first | exact h1.symm | cases h2)
      | split at h

/-- Closed witness for C1: in the hostile environment the fetch fails, the
call reports the transport error, and the store comes back untouched. -/
theorem update_checkpoint_error_keeps_store_witness :
    update_checkpoint envFail stEmpty tsFive [PackageInfo.new "p"] =
      (stEmpty, .error (.api (.otherError 7))) ∧
    stEmpty = stEmpty :=
  ⟨by decide,
   update_checkpoint_error_keeps_store envFail stEmpty tsFive
     [PackageInfo.new "p"] stEmpty (.api (.otherError 7)) (by decide)⟩

/-- Counterexample to C3 as stated: with a stored trusted checkpoint of
log length 10 and a target checkpoint of log length 5, a synchronization
call whose every package already records the target checkpoint takes the
empty-update-set early return and succeeds — it does not fail with a
rewind error (the progression check is never reached).  The claim's
universally quantified failure is therefore false on this input. -/
theorem update_checkpoint_rewind_counterexample :
    update_checkpoint envFail stTen tsFive [pAtFive] = (stTen, .ok [pAtFive]) ∧
    stTen.checkpoint = some tsTen ∧
    tsFive.checkpoint.log_length < tsTen.checkpoint.log_length := by
  decide

/-- C3 amended: provided the filtered update set is nonempty (some passed
package is not already at the target checkpoint), a target checkpoint
whose log length is strictly below the stored trusted checkpoint's makes
the call fail with the store untouched, and the progression check itself
reports exactly the checkpoint-rewound error (an earlier fetch, validation,
signature or inclusion failure may surface first). -/
theorem update_checkpoint_rewind_rejected (env : Env) (st : Store)
    (ts : TsCheckpoint) (packages : List PackageInfo) (fromCp : TsCheckpoint)
    (hfrom : st.checkpoint = some fromCp)
    (hlt : ts.checkpoint.log_length < fromCp.checkpoint.log_length)
    (hne : ∃ p ∈ packages, p.checkpoint ≠ some ts.checkpoint) :
    (∃ e, update_checkpoint env st ts packages = (st, .error e)) ∧
    progressionCheck env st ts =
      .error (.checkpointLogLengthRewind fromCp.checkpoint.log_length
        ts.checkpoint.log_length) := by
  have hprog : progressionCheck env st ts =
      .error (.checkpointLogLengthRewind fromCp.checkpoint.log_length
        ts.checkpoint.log_length) := by
    simp only [progressionCheck, hfrom]
    rw [if_pos hlt]
  refine ⟨?_, hprog⟩
  have hb : ¬(buildUpdating ts.checkpoint packages).isEmpty = true := by
    have := buildUpdating_ne_nil ts.checkpoint packages [] 0 hne
    simpa [List.isEmpty_iff] using this
  simp only [update_checkpoint]
  rw [if_neg hb]
  repeat
    any_goals
      first
      | exact ⟨_, rfl⟩
      | split
  all_goals simp_all [hprog]

/-- Witness for the amended C3: a hostile environment, a store trusting
the length-10 checkpoint, a length-5 target and one fresh package. -/
theorem update_checkpoint_rewind_rejected_witness :
    (∃ e, update_checkpoint envFail stTen tsFive [PackageInfo.new "p"] =
      (stTen, .error e)) ∧
    progressionCheck envFail stTen tsFive =
      .error (.checkpointLogLengthRewind 10 5) :=
  update_checkpoint_rewind_rejected envFail stTen tsFive [PackageInfo.new "p"]
    tsTen rfl (by decide) ⟨PackageInfo.new "p", by simp, by decide⟩

/-- Counterexample to C4 as stated: with a stored checkpoint and a target
checkpoint of equal log length 5 but different log roots, a call whose
every package already records the target checkpoint takes the
empty-update-set early return and succeeds instead of failing with an
equivocation error. -/
theorem update_checkpoint_equivocation_counterexample :
    update_checkpoint envFail stFiveOther tsFive [pAtFive] =
      (stFiveOther, .ok [pAtFive]) ∧
    stFiveOther.checkpoint = some tsFiveOther ∧
    tsFiveOther.checkpoint.log_length = tsFive.checkpoint.log_length ∧
    tsFiveOther.checkpoint.log_root ≠ tsFive.checkpoint.log_root := by
  decide

/-- C4 amended: provided the filtered update set is nonempty, equal log
lengths with a differing log root or map root make the call fail with the
store untouched, the progression check itself reporting exactly the
equivocation error; and when both roots are byte-identical the progression
check passes. -/
theorem update_checkpoint_equivocation_rejected (env : Env) (st : Store)
    (ts : TsCheckpoint) (packages : List PackageInfo) (fromCp : TsCheckpoint)
    (hfrom : st.checkpoint = some fromCp)
    (hlen : fromCp.checkpoint.log_length = ts.checkpoint.log_length)
    (hne : ∃ p ∈ packages, p.checkpoint ≠ some ts.checkpoint) :
    ((fromCp.checkpoint.log_root ≠ ts.checkpoint.log_root ∨
        fromCp.checkpoint.map_root ≠ ts.checkpoint.map_root) →
      (∃ e, update_checkpoint env st ts packages = (st, .error e)) ∧
      progressionCheck env st ts =
        .error (.checkpointChangedLogRootOrMapRoot fromCp.checkpoint.log_length)) ∧
    (fromCp.checkpoint.log_root = ts.checkpoint.log_root →
      fromCp.checkpoint.map_root = ts.checkpoint.map_root →
      progressionCheck env st ts = .ok ()) := by
  have h1 : ¬(fromCp.checkpoint.log_length > ts.checkpoint.log_length) := by omega
  have h2 : ¬(fromCp.checkpoint.log_length < ts.checkpoint.log_length) := by omega
  constructor
  · intro hroots
    have hprog : progressionCheck env st ts =
        .error (.checkpointChangedLogRootOrMapRoot fromCp.checkpoint.log_length) := by
      simp only [progressionCheck, hfrom]
      rw [if_neg h1, if_neg h2, if_pos hroots]
    refine ⟨?_, hprog⟩
    have hb : ¬(buildUpdating ts.checkpoint packages).isEmpty = true := by
      have := buildUpdating_ne_nil ts.checkpoint packages [] 0 hne
      simpa [List.isEmpty_iff] using this
    simp only [update_checkpoint]
    rw [if_neg hb]
    repeat
      any_goals
        first
        | exact ⟨_, rfl⟩
        | split
    all_goals simp_all [hprog]
  · intro hlr hmr
    simp only [progressionCheck, hfrom]
    rw [if_neg h1, if_neg h2, if_neg (by simp [hlr, hmr])]

/-- Witness for the amended C4: equal lengths, differing log roots, one
fresh package pending. -/
theorem update_checkpoint_equivocation_rejected_witness :
    (∃ e, update_checkpoint envFail stFiveOther tsFive [PackageInfo.new "p"] =
      (stFiveOther, .error e)) ∧
    progressionCheck envFail stFiveOther tsFive =
      .error (.checkpointChangedLogRootOrMapRoot 5) :=
  (update_checkpoint_equivocation_rejected envFail stFiveOther tsFive
    [PackageInfo.new "p"] tsFiveOther rfl rfl
    ⟨PackageInfo.new "p", by simp, by decide⟩).1 (Or.inl (by decide))

/-- C6: `publish` fails with `NotPublishing` when no `PublishInfo` is
staged; otherwise the staged info is consumed, the inner
`publish_with_info` result (success or failure) is returned unchanged,
and the staged publish is cleared from storage before returning. -/
theorem publish_requires_and_clears_staged_info (env : Env) (signing_key : Nat)
    (st : Store) :
    (st.publish = none →
      publish env signing_key st = (st, .error .notPublishing)) ∧
    (∀ info, st.publish = some info →
      (publish env signing_key st).1.publish = none ∧
      (publish env signing_key st).2 =
        (publish_with_info env signing_key st info).2) := by
  constructor
  · intro h
    simp [publish, h]
  · intro info h
    rcases hpw : publish_with_info env signing_key st info with ⟨st', res⟩
    simp [publish, h, hpw, Store.store_publish]

/-- Witness for C6: without a staged publish the call fails with
`NotPublishing`; with one staged, it is cleared whatever happens. -/
theorem publish_requires_and_clears_staged_info_witness :
    publish envFail 0 stEmpty = (stEmpty, .error .notPublishing) ∧
    (publish envA 0 stPub).1.publish = none :=
  ⟨(publish_requires_and_clears_staged_info envFail 0 stEmpty).1 rfl,
   ((publish_requires_and_clears_staged_info envA 0 stPub).2
     ⟨"p", none, [.init]⟩ rfl).1⟩

/-- Counterexample to C7 as stated: with every registry API call failing,
a `publish_with_info` for a non-initializing `PublishInfo` with no
explicit head surfaces the network failure of the head-resolving
synchronization — the must-initialize conflict is not decided before a
network call, contradicting "both of these invalid combinations are
rejected before any network call". -/
theorem publish_with_info_must_init_counterexample :
    (publish_with_info envFail 0 stEmpty ⟨"p", none, [.release 1 2]⟩).2 =
      .error (.api (.otherError 7)) ∧
    (publish_with_info envFail 0 stEmpty ⟨"p", none, [.release 1 2]⟩).2 ≠
      .error (.mustInitializePackage "p") := by
  decide

/-- C7 amended: an empty entry list fails with nothing-to-publish, and
initializing with a head present fails with the cannot-initialize
conflict, both for every environment (hence before any network call);
whereas not-initializing with no explicit head first synchronizes to the
registry's latest checkpoint (a network operation) and fails with the
must-initialize conflict only if the head is still unresolved afterwards. -/
theorem publish_with_info_preconditions (env : Env) (signing_key : Nat)
    (st : Store) (info : PublishInfo) :
    (info.entries = [] →
      publish_with_info env signing_key st info =
        (st, .error (.nothingToPublish info.name))) ∧
    (info.entries ≠ [] → info.initializing = true → info.head.isSome = true →
      publish_with_info env signing_key st info =
        (st, .error (.cannotInitializePackage
          ((st.load_package info.name).getD (PackageInfo.new info.name)).name))) ∧
    (∀ ts st' ps,
      info.entries ≠ [] → info.initializing = false → info.head = none →
      env.latestCheckpoint = .ok ts →
      update_checkpoint env st ts
        [(st.load_package info.name).getD (PackageInfo.new info.name)] =
          (st', .ok ps) →
      env.pkgHead
        ((ps.getD 0 ((st.load_package info.name).getD (PackageInfo.new info.name))).state) =
          none →
      publish_with_info env signing_key st info =
        (st', .error (.mustInitializePackage
          (ps.getD 0 ((st.load_package info.name).getD (PackageInfo.new info.name))).name))) := by
  refine ⟨?_, ?_, ?_⟩
  · intro h
    simp [publish_with_info, h]
  · intro hne hinit hsome
    have hemp : info.entries.isEmpty = false := by
      cases hh : info.entries <;> simp_all
    simp only [publish_with_info, hemp, Bool.false_eq_true, if_false]
    rw [if_neg (by simp [hinit])]
    simp [publishSubmit, hinit, hsome]
  · intro ts st' ps hne hinit hhead hlatest hupd hnohead
    have hemp : info.entries.isEmpty = false := by
      cases hh : info.entries <;> simp_all
    simp only [publish_with_info, hemp, Bool.false_eq_true, if_false]
    rw [if_pos (by simp [hinit, hhead])]
    rw [hlatest]
    simp only [hupd]
    simp only [List.getD_eq_getElem?_getD] at hnohead
    simp [publishSubmit, hinit, hnohead]

/-- Witness for the amended C7, discharging all three conjuncts at
concrete inputs: an empty entry list, an initializing publish with an
explicit head, and a non-initializing publish whose head resolution
synchronizes (successfully) but finds no head. -/
theorem publish_with_info_preconditions_witness :
    publish_with_info envFail 0 stEmpty ⟨"p", none, []⟩ =
      (stEmpty, .error (.nothingToPublish "p")) ∧
    publish_with_info envFail 0 stEmpty ⟨"p", some 3, [.init]⟩ =
      (stEmpty, .error (.cannotInitializePackage "p")) ∧
    publish_with_info envC 0 stLocalP ⟨"p", none, [.release 1 2]⟩ =
      (stLocalPSynced, .error (.mustInitializePackage "p")) :=
  ⟨(publish_with_info_preconditions envFail 0 stEmpty ⟨"p", none, []⟩).1 rfl,
   (publish_with_info_preconditions envFail 0 stEmpty ⟨"p", some 3, [.init]⟩).2.1
     (by decide) rfl rfl,
   (publish_with_info_preconditions envC 0 stLocalP ⟨"p", none, [.release 1 2]⟩).2.2
     tsFive stLocalPSynced [pLocalSynced] (by decide) rfl rfl rfl (by decide) rfl⟩

/-- C8: given the synchronized package state, `download_exact` fails with
`PackageVersionDoesNotExist` both when the exact version has no release
and when the release exists but has no content digest (yanked), and
returns the version, digest and content path when the version exists with
content. -/
theorem download_exact_version_resolution (env : Env) (st : Store)
    (package : String) (version : Nat) (st' : Store) (info : PackageInfo)
    (hfetch : fetch_package env st package = (st', .ok info)) :
    (env.pkgRelease info.state version = none →
      download_exact env st package version =
        (st', .error (.packageVersionDoesNotExist version package))) ∧
    (∀ release, env.pkgRelease info.state version = some release →
      release.content = none →
      download_exact env st package version =
        (st', .error (.packageVersionDoesNotExist version package))) ∧
    (∀ release digest st2 path,
      env.pkgRelease info.state version = some release →
      release.content = some digest →
      download_content env st' digest = (st2, .ok path) →
      download_exact env st package version =
        (st2, .ok ⟨version, digest, path⟩)) := by
  refine ⟨?_, ?_, ?_⟩
  · intro h
    simp [download_exact, hfetch, h]
  · intro release h hc
    simp [download_exact, hfetch, h, hc]
  · intro release digest st2 path h hc hd
    simp [download_exact, hfetch, h, hc, hd]

/-- Witness for C8, discharging all three conjuncts: a package with no
release at the version, a yanked release, and a release with content
already materialized locally. -/
theorem download_exact_version_resolution_witness :
    download_exact envFail stLocalQ "q" 3 =
      (stLocalQ, .error (.packageVersionDoesNotExist 3 "q")) ∧
    download_exact envD stLocalP "p" 3 =
      (stLocalP, .error (.packageVersionDoesNotExist 3 "p")) ∧
    download_exact envFail stLocalP "p" 3 = (stLocalP, .ok ⟨3, 5, 5⟩) :=
  ⟨(download_exact_version_resolution envFail stLocalQ "q" 3 stLocalQ
      (PackageInfo.new "q") rfl).1 rfl,
   (download_exact_version_resolution envD stLocalP "p" 3 stLocalP pLocal
      rfl).2.1 ⟨3, none⟩ rfl rfl,
   (download_exact_version_resolution envFail stLocalP "p" 3 stLocalP pLocal
      rfl).2.2 ⟨3, some 5⟩ 5 stLocalP 5 rfl rfl rfl⟩

/-- Counterexample to C9 as stated: with a package already mirrored
locally, `download_exact` resolves the version against the stored state
as-is and succeeds even though every registry API call fails and no
checkpoint is stored — the log cannot have been "brought up to date with
the registry's latest checkpoint", which is not even obtainable. -/
theorem download_uses_stale_local_log_counterexample :
    (download_exact envFail stLocalP "p" 3).2 = .ok ⟨3, 5, 5⟩ ∧
    envFail.latestCheckpoint = .error (.otherError 7) ∧
    stLocalP.checkpoint = none := by
  decide

/-- C9 amended: `download` and `download_exact` resolve against
`fetch_package`'s result: a package already in client storage is used
as-is (for every environment — no registry call is made for it), an
unseen package is synchronized to the registry's latest checkpoint
starting from a fresh mirror, and a synchronization failure aborts both
download entry points with that error. -/
theorem fetch_package_sync_behaviour (env : Env) (st : Store) (name : String)
    (version requirement : Nat) :
    (∀ info, st.load_package name = some info →
      fetch_package env st name = (st, .ok info)) ∧
    (st.load_package name = none → ∀ ts, env.latestCheckpoint = .ok ts →
      fetch_package env st name =
        (let r := update_checkpoint env st ts [PackageInfo.new name]
         (r.1, r.2.map (fun ps => ps.getD 0 (PackageInfo.new name))))) ∧
    (∀ st' e, fetch_package env st name = (st', .error e) →
      download_exact env st name version = (st', .error e) ∧
      download env st name requirement = (st', .error e)) := by
  refine ⟨?_, ?_, ?_⟩
  · intro info h
    simp [fetch_package, h]
  · intro hnone ts hts
    rcases hu : update_checkpoint env st ts [PackageInfo.new name] with ⟨st', r⟩
    cases r <;> simp [fetch_package, hnone, hts, hu, Except.map]
  · intro st' e h
    constructor
    · simp [download_exact, h]
    · simp [download, h]

/-- Witness for the amended C9: a locally known package is returned
as-is; an unseen package is synchronized to the latest checkpoint; a
failed synchronization aborts `download_exact` with the same error. -/
theorem fetch_package_sync_behaviour_witness :
    fetch_package envFail stLocalP "p" = (stLocalP, .ok pLocal) ∧
    fetch_package envA stEmpty "p" =
      (let r := update_checkpoint envA stEmpty tsFive [PackageInfo.new "p"]
       (r.1, r.2.map (fun ps => ps.getD 0 (PackageInfo.new "p")))) ∧
    download_exact envFail stEmpty "p" 3 =
      (stEmpty, .error (.api (.otherError 7))) :=
  ⟨(fetch_package_sync_behaviour envFail stLocalP "p" 3 0).1 pLocal rfl,
   (fetch_package_sync_behaviour envA stEmpty "p" 3 0).2.1 rfl tsFive rfl,
   ((fetch_package_sync_behaviour envFail stEmpty "p" 3 0).2.2 stEmpty
     (.api (.otherError 7)) (by decide)).1⟩

theorem uploadMissing_skip_all (env : Env) (st : Store) (name : String)
    (rid : Nat) :
    ∀ items : List (Nat × MissingContent),
      (∀ x ∈ items, usableFirst x.2 = false) →
      uploadMissing env st name rid items = .ok () := by
  intro items
  induction items with
  | nil => intro _; rfl
  | cons x xs ih =>
    intro h
    have hx : usableFirst x.2 = false := h x (by simp)
    obtain ⟨d, mc⟩ := x
    rcases hu : mc.upload.head? with _ | ep
    · simp only [uploadMissing, hu]
      exact ih (fun y hy => h y (by simp [hy]))
    · cases ep with
      | http m u hs => simp [usableFirst, hu] at hx
      | other =>
        simp only [uploadMissing, hu]
        exact ih (fun y hy => h y (by simp [hy]))

theorem uploadMissing_content_not_found (env : Env) (st : Store)
    (name : String) (rid digest : Nat) (mc : MissingContent)
    (rest : List (Nat × MissingContent)) (method url : String)
    (headers : List (String × String))
    (hu : mc.upload.head? = some (.http method url headers))
    (hl : st.load_content digest = none) :
    uploadMissing env st name rid ((digest, mc) :: rest) =
      .error (.contentNotFound digest) := by
  simp [uploadMissing, hu, hl]

theorem uploadMissing_first_endpoint_only (env : Env) (st : Store)
    (name : String) (rid : Nat) :
    ∀ items items' : List (Nat × MissingContent),
      items.map (fun x => (x.1, x.2.upload.head?)) =
        items'.map (fun x => (x.1, x.2.upload.head?)) →
      uploadMissing env st name rid items = uploadMissing env st name rid items' := by
  intro items
  induction items with
  | nil =>
    intro items' h
    cases items' with
    | nil => rfl
    | cons y ys => simp at h
  | cons x xs ih =>
    intro items' h
    cases items' with
    | nil => simp at h
    | cons y ys =>
      obtain ⟨d, mc⟩ := x
      obtain ⟨d', mc'⟩ := y
      simp only [List.map_cons, List.cons.injEq, Prod.mk.injEq] at h
      obtain ⟨⟨hd, hh⟩, hrest⟩ := h
      subst hd
      rcases hu : mc'.upload.head? with _ | ep
      · rw [hu] at hh
        simp only [uploadMissing, hu, hh]
        exact ih ys hrest
      · rw [hu] at hh
        cases ep with
        | http m u hs =>
          simp only [uploadMissing, hu, hh]
          rcases hl : st.load_content d with _ | c
          · rfl
          · dsimp only
            rcases hc : env.uploadContent m u hs c with e | v
            · cases e <;> rfl
            · exact ih ys hrest
        | other =>
          simp only [uploadMissing, hu, hh]
          exact ih ys hrest

theorem publish_with_info_skippable_missing (env : Env) (signing_key : Nat)
    (st : Store) (info : PublishInfo) (record : Nat) (resp : PublishResponse)
    (hinit : info.initializing = true) (hhead : info.head = none)
    (hfin : env.finalize info signing_key = .ok record)
    (hpub : env.publishPackageRecord
      (LogId.package_log ((st.load_package info.name).getD (PackageInfo.new info.name)).name)
      ⟨((st.load_package info.name).getD (PackageInfo.new info.name)).name, record⟩ =
        .ok resp)
    (hmc : ∀ x ∈ resp.missing_content, usableFirst x.2 = false) :
    publish_with_info env signing_key st info = (st, .ok resp.record_id) := by
  have hne : info.entries.isEmpty = false := by
    unfold PublishInfo.initializing at hinit
    cases h : info.entries with
    | nil => rw [h] at hinit; cases hinit
    | cons a l => simp
  simp only [publish_with_info, hne, Bool.false_eq_true, if_false]
  rw [if_neg (by simp [hinit])]
  simp only [publishSubmit, hinit, hhead, Option.isSome_none]
  rw [hfin]
  dsimp only
  rw [hpub]
  dsimp only
  rw [uploadMissing_skip_all env st
    ((st.load_package info.name).getD (PackageInfo.new info.name)).name
    resp.record_id resp.missing_content hmc]

/-- C10: during `publish_with_info`'s upload phase, a missing-content
digest with no upload endpoint, or whose first endpoint is not HTTP, is
silently skipped; only the first endpoint of each digest is ever
consulted; a digest with a usable HTTP first endpoint but no locally
stored content fails with `ContentNotFound`; and when every missing digest
is skippable, `publish_with_info` still returns the record id. -/
theorem upload_missing_first_endpoint (env : Env) (st : Store) (name : String)
    (rid digest : Nat) (mc : MissingContent)
    (items items' rest : List (Nat × MissingContent)) (method url : String)
    (headers : List (String × String)) (signing_key record : Nat)
    (st2 : Store) (info : PublishInfo) (resp : PublishResponse) :
    ((∀ x ∈ items, usableFirst x.2 = false) →
      uploadMissing env st name rid items = .ok ()) ∧
    (mc.upload.head? = some (.http method url headers) →
      st.load_content digest = none →
      uploadMissing env st name rid ((digest, mc) :: rest) =
        .error (.contentNotFound digest)) ∧
    (items.map (fun x => (x.1, x.2.upload.head?)) =
        items'.map (fun x => (x.1, x.2.upload.head?)) →
      uploadMissing env st name rid items = uploadMissing env st name rid items') ∧
    (info.initializing = true → info.head = none →
      env.finalize info signing_key = .ok record →
      env.publishPackageRecord
        (LogId.package_log ((st2.load_package info.name).getD (PackageInfo.new info.name)).name)
        ⟨((st2.load_package info.name).getD (PackageInfo.new info.name)).name, record⟩ =
          .ok resp →
      (∀ x ∈ resp.missing_content, usableFirst x.2 = false) →
      publish_with_info env signing_key st2 info = (st2, .ok resp.record_id)) :=
  ⟨uploadMissing_skip_all env st name rid items,
   fun hu hl => uploadMissing_content_not_found env st name rid digest mc rest
     method url headers hu hl,
   uploadMissing_first_endpoint_only env st name rid items items',
   fun hinit hhead hfin hpub hmc => publish_with_info_skippable_missing env
     signing_key st2 info record resp hinit hhead hfin hpub hmc⟩

/-- Witness for C10, discharging all four conjuncts at concrete inputs:
an endpoint-less digest and a non-HTTP digest are skipped, an HTTP digest
without local content fails with content-not-found, results depend only on
first endpoints, and a publish whose missing content is all skippable
returns the record id. -/
theorem upload_missing_first_endpoint_witness :
    uploadMissing envFail stEmpty "p" 42 [(6, ⟨[]⟩), (7, ⟨[.other]⟩)] = .ok () ∧
    uploadMissing envFail stEmpty "p" 42 [(6, ⟨[.http "m" "u" []]⟩)] =
      .error (.contentNotFound 6) ∧
    uploadMissing envFail stEmpty "p" 42 [(6, ⟨[.other, .http "m" "u" []]⟩)] =
      uploadMissing envFail stEmpty "p" 42 [(6, ⟨[.other]⟩)] ∧
    publish_with_info envE 0 stEmpty ⟨"p", none, [.init]⟩ = (stEmpty, .ok 42) := by
  refine ⟨?_, ?_, ?_, ?_⟩
  · exact (upload_missing_first_endpoint envFail stEmpty "p" 42 6 ⟨[]⟩
      [(6, ⟨[]⟩), (7, ⟨[.other]⟩)] [] [] "m" "u" [] 0 0 stEmpty
      ⟨"p", none, []⟩ ⟨0, []⟩).1 (by decide)
  · exact (upload_missing_first_endpoint envFail stEmpty "p" 42 6
      ⟨[.http "m" "u" []]⟩ [] [] [] "m" "u" [] 0 0 stEmpty
      ⟨"p", none, []⟩ ⟨0, []⟩).2.1 rfl rfl
  · exact (upload_missing_first_endpoint envFail stEmpty "p" 42 6 ⟨[]⟩
      [(6, ⟨[.other, .http "m" "u" []]⟩)] [(6, ⟨[.other]⟩)] [] "m" "u" [] 0 0
      stEmpty ⟨"p", none, []⟩ ⟨0, []⟩).2.2.1 (by decide)
  · exact (upload_missing_first_endpoint envE stEmpty "p" 42 6 ⟨[]⟩
      [] [] [] "m" "u" [] 0 9 stEmpty ⟨"p", none, [.init]⟩
      ⟨42, [(6, ⟨[]⟩), (7, ⟨[.other]⟩)]⟩).2.2.2 rfl rfl rfl rfl (by decide)

theorem optLeB_refl (a : Option Nat) : optLeB a a = true := by
  cases a <;> simp [optLeB]

theorem optLeB_trans {a b c : Option Nat} (h1 : optLeB a b = true)
    (h2 : optLeB b c = true) : optLeB a c = true := by
  cases a <;> cases b <;> cases c <;> simp_all [optLeB]
  omega

theorem processPackageRecord_le (env : Env) (p : PackageInfo)
    (r : FetchedRecord) (p' : PackageInfo)
    (h : processPackageRecord env p r = .ok p') :
    optLeB p.head_registry_index p'.head_registry_index = true := by
  unfold processPackageRecord at h
  rcases he : r.envelope with n | pe
  · rw [he] at h; cases h
  · rw [he] at h
    dsimp only at h
    split at h
    · rcases hv : env.pkgValidate p.state pe.envelope with inner | s'
      · rw [hv] at h; cases h
      · rw [hv] at h
        dsimp only at h
        injection h with h
        subst h
        rename_i hc
        rcases hh : p.head_registry_index with _ | a
        · simp [optLeB]
        · rw [hh] at hc
          simp only [Option.isNone_some, Bool.false_eq_true, false_or,
            Option.getD_some] at hc
          simp [optLeB]
          omega
    · injection h with h
      subst h
      exact optLeB_refl _

theorem processPackageRecords_le (env : Env) :
    ∀ (rs : List FetchedRecord) (p p' : PackageInfo),
      processPackageRecords env p rs = .ok p' →
      optLeB p.head_registry_index p'.head_registry_index = true := by
  intro rs
  induction rs with
  | nil =>
    intro p p' h
    injection h with h
    subst h
    exact optLeB_refl _
  | cons r rs ih =>
    intro p p' h
    simp only [processPackageRecords] at h
    rcases hr : processPackageRecord env p r with e | q
    · rw [hr] at h; cases h
    · rw [hr] at h
      exact optLeB_trans (processPackageRecord_le env p r q hr) (ih q p' h)

theorem processPackageBatch_le (env : Env) (p : PackageInfo)
    (records : List FetchedRecord) (p' : PackageInfo)
    (h : processPackageBatch env p records = .ok p') :
    optLeB p.head_registry_index p'.head_registry_index = true := by
  unfold processPackageBatch at h
  rcases hr : processPackageRecords env p records with e | q
  · rw [hr] at h; cases h
  · rw [hr] at h
    dsimp only at h
    split at h
    · cases h
    · injection h with h
      subst h
      exact processPackageRecords_le env records p _ hr

theorem headAt_set_le (ps : List PackageInfo) (idx : Nat) (p' : PackageInfo)
    (h : optLeB (ps.getD idx (PackageInfo.new "")).head_registry_index
      p'.head_registry_index = true) :
    ∀ i, optLeB (headAt ps i) (headAt (ps.set idx p') i) = true := by
  intro i
  by_cases hij : idx = i
  · subst hij
    by_cases hlen : idx < ps.length
    · have h1 : (ps.set idx p').getD idx (PackageInfo.new "") = p' := by
        simp [List.getD_eq_getElem?_getD, List.getElem?_set_self hlen]
      unfold headAt
      rw [h1]
      exact h
    · unfold headAt
      rw [List.set_eq_of_length_le (Nat.le_of_not_lt hlen)]
      exact optLeB_refl _
  · have h1 : (ps.set idx p').getD i (PackageInfo.new "") =
        ps.getD i (PackageInfo.new "") := by
      simp [List.getD_eq_getElem?_getD, List.getElem?_set_ne hij]
    unfold headAt
    rw [h1]
    exact optLeB_refl _

theorem processPagePackages_le (env : Env) (updating : List (LogId × Nat)) :
    ∀ (pages : List (LogId × List FetchedRecord)) (ps ps' : List PackageInfo),
      processPagePackages env updating ps pages = .ok ps' →
      ∀ i, optLeB (headAt ps i) (headAt ps' i) = true := by
  intro pages
  induction pages with
  | nil =>
    intro ps ps' h i
    injection h with h
    subst h
    exact optLeB_refl _
  | cons pg pgs ih =>
    intro ps ps' h i
    obtain ⟨lid, recs⟩ := pg
    simp only [processPagePackages] at h
    rcases hl : lookupAssoc updating lid with _ | idx
    · rw [hl] at h; cases h
    · rw [hl] at h
      dsimp only at h
      rcases hb : processPackageBatch env (ps.getD idx (PackageInfo.new "")) recs
        with e | q
      · rw [hb] at h; cases h
      · rw [hb] at h
        dsimp only at h
        exact optLeB_trans
          (headAt_set_le ps idx q (processPackageBatch_le env _ recs q hb) i)
          (ih (ps.set idx q) ps' h i)

theorem fetchLoop_le (env : Env) (checkpoint : Checkpoint)
    (updating : List (LogId × Nat)) :
    ∀ (fuel callIdx : Nat) (op : OperatorInfo) (ps : List PackageInfo)
      (lk : List (LogId × Option String)) (op' : OperatorInfo)
      (ps' : List PackageInfo),
      fetchLoop env checkpoint updating fuel callIdx op ps lk = .ok (op', ps') →
      ∀ i, optLeB (headAt ps i) (headAt ps' i) = true := by
  intro fuel
  induction fuel with
  | zero => intro callIdx op ps lk op' ps' h i; cases h
  | succ n ih =>
    intro callIdx op ps lk op' ps' h i
    simp only [fetchLoop] at h
    rcases hf : env.fetchLogs callIdx
        { log_length := checkpoint.log_length
          operator := op.head_fetch_token
          packages := lk } with e | resp
    · rw [hf] at h; cases h
    · rw [hf] at h
      dsimp only at h
      rcases ho : processOperatorRecords env op resp.operator with e | op2
      · rw [ho] at h; cases h
      · rw [ho] at h
        dsimp only at h
        rcases hp : processPagePackages env updating ps resp.packages with e | ps2
        · rw [hp] at h; cases h
        · rw [hp] at h
          dsimp only at h
          by_cases hm : resp.more = true
          · rw [if_pos hm] at h
            exact optLeB_trans
              (processPagePackages_le env updating resp.packages ps ps2 hp i)
              (ih (callIdx + 1) op2 ps2 _ op' ps' h i)
          · rw [if_neg hm] at h
            injection h with h
            injection h with h1 h2
            subst h2
            exact processPagePackages_le env updating resp.packages ps ps2 hp i

theorem commitUpdating_headAt (ts : TsCheckpoint) :
    ∀ (l : List (LogId × Nat)) (st : Store) (ps : List PackageInfo) (i : Nat),
      optLeB (headAt ps i) (headAt (commitUpdating ts st ps l).2 i) = true := by
  intro l
  induction l with
  | nil => intro st ps i; exact optLeB_refl _
  | cons x xs ih =>
    intro st ps i
    obtain ⟨lid, idx⟩ := x
    simp only [commitUpdating]
    exact optLeB_trans
      (headAt_set_le ps idx
        { ps.getD idx (PackageInfo.new "") with checkpoint := some ts.checkpoint }
        (optLeB_refl _) i)
      (ih _ _ i)

theorem update_checkpoint_headAt (env : Env) (st : Store) (ts : TsCheckpoint)
    (packages : List PackageInfo) (st2 : Store) (ps' : List PackageInfo)
    (h : update_checkpoint env st ts packages = (st2, .ok ps')) :
    ∀ i, optLeB (headAt packages i) (headAt ps' i) = true := by
  intro i
  simp only [update_checkpoint] at h
  by_cases hemp : (buildUpdating ts.checkpoint packages).isEmpty = true
  · rw [if_pos hemp] at h
    injection h with h1 h2
    injection h2 with h2
    subst h2
    exact optLeB_refl _
  · rw [if_neg hemp] at h
    split at h
    next e heq => injection h with h1 h2; cases h2
    next op ps1 hfetch =>
      split at h
      next e heq => injection h with h1 h2; cases h2
      next u hver =>
        split at h
        next e heq => injection h with h1 h2; cases h2
        next leaf_indices leafs hleaves =>
          split at h
          next e heq => injection h with h1 h2; cases h2
          next u2 hincl =>
            split at h
            next e heq => injection h with h1 h2; cases h2
            next u3 hprog =>
              injection h with h1 h2
              injection h2 with h2
              subst h2
              exact optLeB_trans
                (fetchLoop_le env ts.checkpoint
                  (buildUpdating ts.checkpoint packages) env.fuel 0
                  (st.operator.getD default) packages _ op ps1 hfetch i)
                (commitUpdating_headAt ts (buildUpdating ts.checkpoint packages)
                  (st.store_operator op) ps1 i)

theorem syncSeq_headAt :
    ∀ (steps : List (Env × TsCheckpoint)) (st : Store)
      (ps : List PackageInfo) (i : Nat),
      optLeB (headAt ps i) (headAt (syncSeq steps st ps).2 i) = true := by
  intro steps
  induction steps with
  | nil => intro st ps i; exact optLeB_refl _
  | cons step rest ih =>
    intro st ps i
    obtain ⟨env, ts⟩ := step
    simp only [syncSeq]
    rcases hu : update_checkpoint env st ts ps with ⟨st', r⟩
    rcases r with e | ps'
    · exact ih st' ps i
    · exact optLeB_trans (update_checkpoint_headAt env st ts ps st' ps' hu i)
        (ih st' ps' i)

theorem processPackageRecord_skip (env : Env) (p : PackageInfo)
    (r : FetchedRecord) (pe : PublishedProtoEnvelope) (a : Nat)
    (he : r.envelope = .ok pe) (hh : p.head_registry_index = some a)
    (hle : pe.registry_index ≤ a) :
    processPackageRecord env p r = .ok p := by
  unfold processPackageRecord
  rw [he]
  dsimp only
  rw [if_neg (by simp [hh]; omega)]

/-- C2: a fetched package record advances a log's head only under the
strict `registry_index` comparison — a record whose index is at or below
the held head leaves the package exactly unchanged for every environment
(so it is never re-validated) — and across any sequence of synchronization
calls with non-decreasing target log lengths every package's
`head_registry_index` is non-decreasing, duplicates and overlapping fetch
pages included. -/
theorem sync_head_registry_index_monotone :
    (∀ (env : Env) (p : PackageInfo) (r : FetchedRecord)
        (pe : PublishedProtoEnvelope) (a : Nat),
      r.envelope = .ok pe → p.head_registry_index = some a →
      pe.registry_index ≤ a →
      processPackageRecord env p r = .ok p) ∧
    (∀ (steps : List (Env × TsCheckpoint)) (st : Store)
        (ps : List PackageInfo), nondecreasingLens steps = true →
      ∀ i, optLeB (headAt ps i) (headAt (syncSeq steps st ps).2 i) = true) :=
  ⟨fun env p r pe a he hh hle =>
    processPackageRecord_skip env p r pe a he hh hle,
   fun steps st ps _ i => syncSeq_headAt steps st ps i⟩

/-- Witness for C2: a duplicate record (registry index 1, at or below the
held head 2) is skipped unchanged, and a concrete two-call sequence keeps
a package's head index non-decreasing. -/
theorem sync_head_registry_index_monotone_witness :
    processPackageRecord envA pAtFive ⟨.ok ⟨9, 1⟩, "t"⟩ = .ok pAtFive ∧
    optLeB (headAt [pLocal] 0)
      (headAt (syncSeq [(envA, tsFive), (envA, tsTen)] stEmpty [pLocal]).2 0) =
      true :=
  ⟨sync_head_registry_index_monotone.1 envA pAtFive ⟨.ok ⟨9, 1⟩, "t"⟩ ⟨9, 1⟩ 2
    rfl rfl (by decide),
   sync_head_registry_index_monotone.2 [(envA, tsFive), (envA, tsTen)] stEmpty
    [pLocal] (by decide) 0⟩

end WargClient
